import Mathlib

/-!
Verification of the core RPC runtime in `src/lib.rs` (a small synchronous
RPC library multiplexing requests over one duplex stream).

Shallow embedding conventions:
  * `u64` ids are modelled as `Nat`; the id counter increments by one per
    call, so overflow of a 64-bit counter is unreachable for any execution
    considered here and is not modelled.
  * The serde_json deserializer is external to the repository; each loop
    that pulls packets from it is modelled as a function over the finite
    list of decode results the deserializer yields
    (`Except JsonError (Packet T)` mirroring `serde_json::Result`).
    List exhaustion means the modelled prefix ran out and is reported by a
    distinct `outOfInput` outcome that no theorem relies on.
  * A Rust `panic!` / `.unwrap()` on a failure value is modelled as a
    distinct `panicked` outcome, kept separate from `Result::Err` returns.
  * Channels: a `std::sync::mpsc` sender is modelled by a `Nat` token; a
    successful `send` is recorded in an output list, and whether the
    receiving end is still alive is an explicit boolean parameter.
-/

namespace Tarpc

/-- Type `Packet<T>` from src/lib.rs: `Message(u64, T)` or `Shutdown`. -/
inductive Packet (T : Type) where
  | Message (id : Nat) (payload : T)
  | Shutdown
  deriving DecidableEq, Repr

/-- Old serde_json error codes, abstracted: the reader pattern-matches on
`EOFWhileParsingValue` (end of input before any byte of a new value); every
other code is collapsed into `otherCode n`. -/
inductive ErrorCode where
  | EOFWhileParsingValue
  | otherCode (n : Nat)
  deriving DecidableEq, Repr

/-- Old `serde_json::Error`: either a wrapped io error (abstracted as a
numeric code) or a `SyntaxError(code, line, col)`. -/
inductive JsonError where
  | IoError (e : Nat)
  | SyntaxError (code : ErrorCode) (line : Nat) (col : Nat)
  deriving DecidableEq, Repr

/-- The crate's `Error` enum: `Io`, `Json`, `Sender`, `Unimplemented`,
`Impossible` (io errors abstracted as numeric codes, json errors as
`JsonError`). -/
inductive Error where
  | Io (e : Nat)
  | Json (e : JsonError)
  | Sender
  | Unimplemented
  | Impossible
  deriving DecidableEq, Repr

/-- Conversion `impl From<serde_json::Error> for Error`: an `IoError` becomes
`Error::Io`, anything else becomes `Error::Json`. -/
def errorFromJson : JsonError → Error
  | .IoError e => .Io e
  | e => .Json e

/-- Outcome of `handle_conn`: `ok` models `Ok(())` (reached only by the
`Shutdown` break), `err` a `try!`-propagated failure, `outOfInput` marks the
end of the modelled decode-result prefix. -/
inductive ConnOut where
  | ok
  | err (e : Error)
  | outOfInput
  deriving DecidableEq, Repr

/-- Function `handle_conn` from src/lib.rs, as a function of the sequence of decode
results the deserializer yields and of the shared handler `serve`
(`f.serve`, returning `io::Result<Reply>` modelled as `Except Nat Reply`).
Returns the list of reply packets written to the stream and the outcome.

Source loop: deserialize one `Packet<Request>` (`try!` propagates any
decode failure through `From<serde_json::Error>`); on `Shutdown` break with
`Ok(())`; on `Message(id, message)` run `try!(f.serve(&message))` (an io
failure becomes `Error::Io`) and write back `Packet::Message(id, reply)`. -/
def handle_conn {Request Reply : Type} (serve : Request → Except Nat Reply) :
    List (Except JsonError (Packet Request)) → List (Packet Reply) × ConnOut
  | [] => ([], .outOfInput)
  | .error e :: _ => ([], .err (errorFromJson e))
  | .ok .Shutdown :: _ => ([], .ok)
  | .ok (.Message id message) :: rest =>
    match serve message with
    | .error e => ([], .err (.Io e))
    | .ok reply =>
      let r := handle_conn serve rest
      (.Message id reply :: r.1, r.2)

/-- Function `serve` (the accept loop) from src/lib.rs, as a function of the finite
prefix of accept results the listener yields (`listener.incoming()` items,
io errors abstracted as numeric codes) over an arbitrary connection type
`Conn`. Each `Ok(conn)` spawns a detached worker running
`handle_conn(conn, f)`; the worker's result is only logged, never joined,
so it is recorded in the returned list and does not influence the loop.
The first `Err(err)` returns `From::from(err) = Error::Io err`; if the
prefix is exhausted without an accept failure the function would fall out
of the `for` loop and return `Error::Impossible`. -/
def serveLoop {Conn : Type} (worker : Conn → ConnOut) :
    List (Except Nat Conn) → Error × List ConnOut
  | [] => (.Impossible, [])
  | .error e :: _ => (.Io e, [])
  | .ok c :: rest =>
    let r := serveLoop worker rest
    (r.1, worker c :: r.2)

/-- Type `Handle<T>` from src/lib.rs: the id a waiter registers under plus its
reply channel (`Sender<T>`, modelled as a `Nat` token naming the channel). -/
structure Handle where
  id : Nat
  sender : Nat
  deriving DecidableEq, Repr

/-- Type `ReceiverMessage<Reply>`: the correlator's input event union. -/
inductive ReceiverMessage (Reply : Type) where
  | Handle (h : Handle)
  | Packet (p : Packet Reply)
  | Shutdown
  deriving DecidableEq, Repr

/-- Lookup in the correlator's `HashMap<u64, Handle>`, modelled as an
association list. -/
def lookupH : List (Nat × Handle) → Nat → Option Handle
  | [], _ => none
  | (k, h) :: rest, id => if k = id then some h else lookupH rest id

/-- Operation `HashMap::remove`: drop every binding of the key. -/
def eraseH : List (Nat × Handle) → Nat → List (Nat × Handle)
  | [], _ => []
  | (k, h) :: rest, id =>
    if k = id then eraseH rest id else (k, h) :: eraseH rest id

/-- Operation `HashMap::insert`: bind the key, replacing any existing binding. -/
def insertH (m : List (Nat × Handle)) (id : Nat) (h : Handle) :
    List (Nat × Handle) :=
  (id, h) :: eraseH m id

/-- Outcome of the correlator loop: `ok` models `Ok(())` (loop end or
`break`), `errSender` the `try!(handle.sender.send(..))` failure path
(`Error::Sender`), `panicked` the `.unwrap()` on a missing handle. -/
inductive RecvOut where
  | ok
  | errSender
  | panicked
  deriving DecidableEq, Repr

/-- Result of running the correlator: the deliveries made (channel token of
the waiter notified, with the payload), the outcome, and the final map. -/
structure RecvResult (Reply : Type) where
  deliveries : List (Nat × Reply)
  outcome : RecvOut
  final : List (Nat × Handle)
  deriving DecidableEq, Repr

/-- Function `receiver` (the client correlator) from src/lib.rs, over the finite
list of events its input channel yields (`messages.into_iter()`; the list
ending models all senders having been dropped, which ends the `for` loop
with `Ok(())`). `chanOpen tok` tells whether the waiter receiver behind
channel token `tok` is still alive, deciding `handle.sender.send`.

Source loop: `Handle(handle)` inserts into the map; `Packet(Shutdown)` and
`Shutdown` break; `Packet(Message(id, message))` does
`ready_handles.remove(&id).unwrap()` — a panic when the id is absent — then
`try!(handle.sender.send(message))`. -/
def receiver {Reply : Type} (chanOpen : Nat → Bool)
    (map : List (Nat × Handle)) :
    List (ReceiverMessage Reply) → RecvResult Reply
  | [] => ⟨[], .ok, map⟩
  | .Handle h :: rest => receiver chanOpen (insertH map h.id h) rest
  | .Packet .Shutdown :: _ => ⟨[], .ok, map⟩
  | .Shutdown :: _ => ⟨[], .ok, map⟩
  | .Packet (.Message id message) :: rest =>
    match lookupH map id with
    | none => ⟨[], .panicked, map⟩
    | some h =>
      if chanOpen h.sender then
        let r := receiver chanOpen (eraseH map id) rest
        ⟨(h.sender, message) :: r.deliveries, r.outcome, r.final⟩
      else ⟨[], .errSender, eraseH map id⟩

/-- Outcome of the reader loop: `finished` models the clean `break`,
`panicked` the `panic!` on an unexpected decode error or the `.unwrap()` on
`tx.send`, `outOfInput` marks the end of the modelled prefix. -/
inductive ReaderOut where
  | finished
  | panicked
  | outOfInput
  deriving DecidableEq, Repr

/-- Function `reader` from src/lib.rs, over the finite list of decode results the
deserializer yields. `txOpen` tells whether the correlator end of the sync
channel is still alive (`tx.send(..).unwrap()` panics otherwise). Returns
the packets forwarded to the correlator and the outcome.

Source loop: `Ok(packet)` forwards `ReceiverMessage::Packet(packet)`;
`Err(SyntaxError(EOFWhileParsingValue, _, _))` breaks; any other error hits
`panic!("unexpected error while parsing!..")`. -/
def reader {Reply : Type} (txOpen : Bool) :
    List (Except JsonError (Packet Reply)) → List (Packet Reply) × ReaderOut
  | [] => ([], .outOfInput)
  | .ok p :: rest =>
    if txOpen then
      let r := reader txOpen rest
      (p :: r.1, r.2)
    else ([], .panicked)
  | .error (.SyntaxError .EOFWhileParsingValue _ _) :: _ => ([], .finished)
  | .error _ :: _ => ([], .panicked)

/-- Function `increment` from src/lib.rs: returns the current id and bumps the
counter by one. -/
def increment (cur_id : Nat) : Nat × Nat :=
  (cur_id, cur_id + 1)

/-- Result of one `Client::rpc` call: `ok` models `Ok(reply)`, `err` a
`try!`-propagated failure, `panicked` the `rx.recv().unwrap()` panic when
every sender for the call's reply channel has been dropped. -/
inductive RpcResult (Reply : Type) where
  | ok (r : Reply)
  | err (e : Error)
  | panicked
  deriving DecidableEq, Repr

/-- Observable effects of one `Client::rpc` call. -/
structure RpcEffects (Request Reply : Type) where
  /-- The id `increment` handed out for this call. -/
  assigned : Nat
  /-- Field `next_id` left in the synced state. -/
  next : Nat
  /-- Events of kind `ReceiverMessage::Handle` (registrations) sent to the correlator. -/
  registered : List Handle
  /-- Request packets serialized to the write half. -/
  written : List (Packet Request)
  /-- The call's return value. -/
  result : RpcResult Reply
  deriving DecidableEq, Repr

/-- Function `Client::rpc` from src/lib.rs as a function of the synced state's
`next_id`, of the fates of its three externally-decided steps, and of the
request. `tok` is the fresh channel token for the `channel()` pair created
at the top of the call; `sendOk` decides `try!(state.handles_tx.send(..))`
(false models `SendError`, i.e. `Error::Sender`); `writeErr` is the
serde_json outcome of `try!(serde_json::to_writer(..))`; `recvd` is what
`rx.recv()` yields — `some r` when the correlator delivered a reply,
`none` when every sender was dropped, where `.unwrap()` panics.

Source order: create the channel, lock, `increment`, send the `Handle`,
serialize `Packet::Message(id, request.clone())`, then
`Ok(rx.recv().unwrap())`. The id is consumed even when a later step
fails. -/
def rpc {Request Reply : Type} (next_id : Nat) (tok : Nat) (sendOk : Bool)
    (writeErr : Option JsonError) (recvd : Option Reply)
    (request : Request) : RpcEffects Request Reply :=
  let p := increment next_id
  let id := p.1
  if sendOk then
    match writeErr with
    | some e => ⟨id, p.2, [⟨id, tok⟩], [], .err (errorFromJson e)⟩
    | none =>
      match recvd with
      | some r => ⟨id, p.2, [⟨id, tok⟩], [.Message id request], .ok r⟩
      | none => ⟨id, p.2, [⟨id, tok⟩], [.Message id request], .panicked⟩
  else ⟨id, p.2, [], [], .err .Sender⟩

/-- Value of `next_id` after `n` successful `Client::rpc` calls on one client
instance; `Client::new` initializes it to 0. -/
def nextIdAfter : Nat → Nat
  | 0 => 0
  | n + 1 =>
    (@rpc Unit Unit
      (nextIdAfter n) 0 true none (some ()) ()).next

/-- The id assigned to the `(n+1)`-st `Client::rpc` call of one client
instance (0-indexed). -/
def assignedId (n : Nat) : Nat :=
  (@rpc Unit Unit
    (nextIdAfter n) 0 true none (some ()) ()).assigned

/-- The abstract actions of one `Client::rpc` invocation, for stating
where the exclusion lock is held. -/
inductive RpcAction where
  | createChannel
  | lockAcquire
  | assignId
  | sendRegister
  | writeRequest
  | recvWait
  | lockRelease
  deriving DecidableEq, Repr

/-- The straight-line action trace of one successful `Client::rpc`
invocation, in source order: `let (tx, rx) = channel()`; `let mut state =
self.synced_state.lock().unwrap()`; `let id = increment(&mut
state.next_id)`; `try!(state.handles_tx.send(ReceiverMessage::Handle(..)))`;
`try!(serde_json::to_writer(&mut state.stream, &packet))`;
`Ok(rx.recv().unwrap())`. The `MutexGuard` bound to `state` is dropped at
the end of the function body, i.e. the lock is released only after
`rx.recv()` returns. -/
def rpcActionTrace : List RpcAction :=
  [.createChannel, .lockAcquire, .assignId, .sendRegister, .writeRequest,
   .recvWait, .lockRelease]

/-- The exclusion lock is held at position `i` of a trace when
`lockAcquire` occurs at or before `i` and `lockRelease` strictly after. -/
def lockHeldAt (tr : List RpcAction) (i : Nat) : Prop :=
  tr.indexOf .lockAcquire ≤ i ∧ i < tr.indexOf .lockRelease

instance (tr : List RpcAction) (i : Nat) : Decidable (lockHeldAt tr i) :=
  inferInstanceAs (Decidable (_ ∧ _))

/-- Modelled from the spec: tokens of the wire encoding of one packet
(§6). The derive-generated `Serialize`/`Deserialize` impls and serde_json
itself live outside this repository, so the reference "self-delimiting
textual object" stream is abstracted to a token list: a tag discriminating
`Message` vs `Shutdown`, the unsigned 64-bit id, and payload material
produced by the out-of-scope payload codec. -/
inductive WireToken (β : Type) where
  | tagMessage
  | tagShutdown
  | idTok (n : Nat)
  | pay (b : β)
  deriving DecidableEq, Repr

/-- Modelled from the spec: serialize a `Packet<T>` to the byte sink (§4.1,
§6), given the payload encoder `encT`. A `Message` is the tag followed by
the `(id, body)` pair; `Shutdown` carries nothing beyond its tag. -/
def encodePacket {T β : Type} (encT : T → List β) :
    Packet T → List (WireToken β)
  | .Message id payload => .tagMessage :: .idTok id :: (encT payload).map .pay
  | .Shutdown => [.tagShutdown]

/-- Modelled from the spec: deserialize one `Packet<T>` from a byte source
(§4.1, §6), given the payload decoder `decT`, which consumes exactly the
payload's own self-delimiting encoding and returns the remainder. Returns
the packet and the unconsumed remainder, or `none` on malformed input. -/
def decodePacket {T β : Type}
    (decT : List (WireToken β) → Option (T × List (WireToken β))) :
    List (WireToken β) → Option (Packet T × List (WireToken β))
  | .tagShutdown :: rest => some (.Shutdown, rest)
  | .tagMessage :: .idTok id :: rest =>
    (decT rest).map (fun pr => (.Message id pr.1, pr.2))
  | _ => none

/-- A concrete supported payload codec over `Nat`: one payload byte per
value. Encoder half. -/
def natPayloadEnc (n : Nat) : List Nat := [n]

/-- Decoder half of the concrete payload codec: consumes exactly one
payload token. -/
def natPayloadDec : List (WireToken Nat) → Option (Nat × List (WireToken Nat))
  | .pay b :: rest => some (b, rest)
  | _ => none

/-- A concrete handler used to instantiate theorems about `handle_conn`:
replies with the request plus one. -/
def serveSucc : Nat → Except Nat Nat := fun n => .ok (n + 1)

/-- A concrete always-failing handler used to instantiate theorems about
`handle_conn`: fails with io error code 7. -/
def serveFail : Nat → Except Nat Nat := fun _ => .error 7

/-- Discriminator for accept results: true on `Ok(conn)`. -/
def isAccept {Conn : Type} : Except Nat Conn → Bool
  | .ok _ => true
  | .error _ => false

/-! Helper lemmas shared by the claim theorems. -/

/-- Every branch of `Client::rpc` leaves `next_id` incremented by one: the
id is consumed before any fallible step. -/
theorem rpc_next_eq {Request Reply : Type} (next tok : Nat) (sendOk : Bool)
    (writeErr : Option JsonError) (recvd : Option Reply) (request : Request) :
    (rpc next tok sendOk writeErr recvd request).next = next + 1 := by
  cases sendOk <;> cases writeErr <;> cases recvd <;> rfl

/-- Every branch of `Client::rpc` assigns the incoming `next_id` as the
call's id. -/
theorem rpc_assigned_eq {Request Reply : Type} (next tok : Nat)
    (sendOk : Bool) (writeErr : Option JsonError) (recvd : Option Reply)
    (request : Request) :
    (rpc next tok sendOk writeErr recvd request).assigned = next := by
  cases sendOk <;> cases writeErr <;> cases recvd <;> rfl

/-- After `n` calls the client's `next_id` is `n`. -/
theorem nextIdAfter_eq : ∀ n, nextIdAfter n = n
  | 0 => rfl
  | n + 1 => by
    show (@rpc Unit Unit
      (nextIdAfter n) 0 true none (some ()) ()).next = n + 1
    rw [rpc_next_eq, nextIdAfter_eq n]

/-- The `n`-th call of a client instance is assigned id `n`. -/
theorem assignedId_eq (n : Nat) : assignedId n = n := by
  unfold assignedId
  rw [rpc_assigned_eq, nextIdAfter_eq]

/-- On any decode result other than a clean end-of-input syntax error, the
reader hits the `panic!` arm and forwards nothing further. -/
theorem reader_panics_of_not_eof {Reply : Type} (txOpen : Bool)
    (e : JsonError) (rest : List (Except JsonError (Packet Reply)))
    (h : ∀ l c, e ≠ .SyntaxError .EOFWhileParsingValue l c) :
    reader txOpen (.error e :: rest) = ([], .panicked) := by
  cases e with
  | IoError n => rfl
  | SyntaxError code l c =>
    cases code with
    | EOFWhileParsingValue => exact absurd rfl (h l c)
    | otherCode n => rfl

/-- Lookup after `HashMap::remove`: the removed key is gone, every other
key is untouched. -/
theorem lookupH_eraseH (m : List (Nat × Handle)) (id k : Nat) :
    lookupH (eraseH m id) k = if k = id then none else lookupH m k := by
  induction m with
  | nil => simp [eraseH, lookupH]
  | cons p rest ih =>
    obtain ⟨a, h⟩ := p
    by_cases hai : a = id
    · subst hai
      have e1 : eraseH ((a, h) :: rest) a = eraseH rest a := by
        simp [eraseH]
      rw [e1, ih]
      by_cases hk : k = a
      · simp [hk]
      · have hak : ¬a = k := fun hh => hk hh.symm
        simp [lookupH, hk, hak]
    · have e1 : eraseH ((a, h) :: rest) id = (a, h) :: eraseH rest id := by
        simp [eraseH, hai]
      rw [e1]
      by_cases hak : a = k
      · subst hak
        simp [lookupH, hai]
      · simp [lookupH, hak, ih]

/-- The accept loop over a prefix of accepted connections with no accept
failure reaches the end of the `for` loop, i.e. `Error::Impossible`. -/
theorem serveLoop_all_ok {Conn : Type} (w : Conn → ConnOut) :
    ∀ conns, (∀ x ∈ conns, isAccept x = true) →
      (serveLoop w conns).1 = .Impossible
  | [], _ => rfl
  | .ok c :: rest, h =>
    serveLoop_all_ok w rest (fun x hx => h x (List.mem_cons_of_mem _ hx))
  | .error n :: rest, h =>
    absurd (h (.error n) (List.mem_cons_self _ _)) (by simp [isAccept])

/-- The accept loop returns `Error::Io e` at the first accept failure. -/
theorem serveLoop_first_error {Conn : Type} (w : Conn → ConnOut) (e : Nat)
    (rest : List (Except Nat Conn)) :
    ∀ pre, (∀ x ∈ pre, isAccept x = true) →
      (serveLoop w (pre ++ .error e :: rest)).1 = .Io e
  | [], _ => rfl
  | .ok c :: pre, h =>
    serveLoop_first_error w e rest pre
      (fun x hx => h x (List.mem_cons_of_mem _ hx))
  | .error n :: pre, h =>
    absurd (h (.error n) (List.mem_cons_self _ _)) (by simp [isAccept])

/-- The error the accept loop returns never depends on the worker results
of the spawned connection handlers. -/
theorem serveLoop_error_independent {Conn : Type} (w w2 : Conn → ConnOut) :
    ∀ conns, (serveLoop w conns).1 = (serveLoop w2 conns).1
  | [] => rfl
  | .error n :: _ => rfl
  | .ok c :: rest => serveLoop_error_independent w w2 rest

/-! The claim theorems. -/

/-- C1: the spec claims the client exclusion lock is held only for id
assignment, waiter registration and the request write, and is released
before the caller blocks for the reply. In the source the `MutexGuard`
bound to `state` lives to the end of `Client::rpc`, so `lockRelease` comes
only after `rx.recv()` returns: the lock is held at the blocking `recvWait`
step, contradicting the claim (and serializing concurrent calls, which the
repository's own `test_concurrent` expects to proceed in parallel). -/
theorem C1_lock_held_across_recv :
    lockHeldAt rpcActionTrace (rpcActionTrace.indexOf .recvWait) ∧
    rpcActionTrace.indexOf .recvWait < rpcActionTrace.indexOf .lockRelease := by
  decide

/-- C2 counterexample: the claim says a call whose notifier is dropped
returns a closed-connection failure and never panics. At the concrete call
`rpc 0 0 true none none ()` (request written, then every sender of the
reply channel dropped), the source's `rx.recv().unwrap()` panics: the
result is the `panicked` outcome, which is neither an `ok` nor an `err`
return. -/
theorem C2_cex_dropped_notifier_panics :
    (@rpc Unit Unit 0 0 true none none ()).result =
      .panicked := rfl

/-- C2 amended: after writing the request packet the caller blocks on
`rx.recv()`; when a reply payload was delivered the call returns it as
success, and when every sender of the notifier has been dropped the call
panics (`unwrap` on `RecvError`) instead of returning a closed-connection
failure. -/
theorem C2_call_outcomes {Request Reply : Type} (next tok : Nat)
    (request : Request) (r : Reply) :
    (rpc next tok true none (some r) request).written =
      [.Message next request] ∧
    (rpc next tok true none (some r) request).result = .ok r ∧
    (@rpc Request Reply next tok true none none request).written =
      [.Message next request] ∧
    (@rpc Request Reply next tok true none none request).result =
      .panicked :=
  ⟨rfl, rfl, rfl, rfl⟩

/-- C3 counterexample: the claim says a `Message` for an unregistered id
makes the correlator surface a protocol-violation error without affecting
other waiters. On the concrete event list `[Packet(Message(5, 0))]` with an
empty map, the source's `ready_handles.remove(&id).unwrap()` panics: the
run ends in the `panicked` outcome, not an error return (the crate's
`Error` enum has no protocol-violation variant at all). -/
theorem C3_cex_unknown_id_panics :
    @receiver Nat (fun _ => true) [] [.Packet (.Message 5 0)] =
      ⟨[], .panicked, []⟩ := rfl

/-- C3 amended: when the correlator dequeues `Packet(Message(id, m))` and
no waiter is registered under `id`, it panics on the `unwrap` of
`HashMap::remove`, ending the correlator loop at once: no delivery is made
to any waiter and the registered waiters are left in the map, dropped
unsignalled. -/
theorem C3_unknown_id_panics {Reply : Type} (chanOpen : Nat → Bool)
    (map : List (Nat × Handle)) (id : Nat) (message : Reply)
    (rest : List (ReceiverMessage Reply))
    (h : lookupH map id = none) :
    receiver chanOpen map (.Packet (.Message id message) :: rest) =
      ⟨[], .panicked, map⟩ := by
  simp only [receiver]
  rw [h]

/-- C3 witness: the amended theorem at the map `[(3, ⟨3, 10⟩)]` and the
unknown id 5. -/
theorem C3_witness :
    lookupH [(3, ⟨3, 10⟩)] 5 = none ∧
    @receiver Nat (fun _ => true) [(3, ⟨3, 10⟩)]
        [.Packet (.Message 5 1)] =
      ⟨[], .panicked, [(3, ⟨3, 10⟩)]⟩ :=
  ⟨rfl, C3_unknown_id_panics (fun _ => true) [(3, ⟨3, 10⟩)] 5 1 [] rfl⟩

/-- C4: the claim (matching the spec's prescription) says a decode failure
other than clean end-of-stream tears the client down gracefully, notifying
every outstanding waiter before the reader exits. In the source the reader
hits `panic!("unexpected error while parsing!..")` instead: it forwards
nothing to the correlator and dies, and a correlator that receives no
further events delivers nothing — every outstanding waiter in its map stays
blocked, unsignalled. -/
theorem C4_reader_panic_no_teardown {Reply : Type} (txOpen : Bool)
    (e : JsonError) (rest : List (Except JsonError (Packet Reply)))
    (chanOpen : Nat → Bool) (map : List (Nat × Handle))
    (h : ∀ l c, e ≠ .SyntaxError .EOFWhileParsingValue l c) :
    reader txOpen (.error e :: rest) = ([], .panicked) ∧
    (@receiver Reply chanOpen map []).deliveries = [] :=
  ⟨reader_panics_of_not_eof txOpen e rest h, rfl⟩

/-- C4 witness: the theorem at the io-error decode result `IoError 3` with
one outstanding waiter registered under id 0. -/
theorem C4_witness :
    (∀ l c, JsonError.IoError 3 ≠ .SyntaxError .EOFWhileParsingValue l c) ∧
    (@reader Nat true [.error (.IoError 3)] = ([], .panicked) ∧
      (@receiver Nat (fun _ => true) [(0, ⟨0, 11⟩)] []).deliveries
        = []) :=
  ⟨fun _ _ hx => JsonError.noConfusion hx,
   C4_reader_panic_no_teardown true (.IoError 3) [] (fun _ => true)
     [(0, ⟨0, 11⟩)] (fun _ _ hx => JsonError.noConfusion hx)⟩

/-- C5: ids assigned by successive `Client::rpc` calls of one client
instance are strictly monotonically increasing starting at 0: the first
call gets id 0, each subsequent call gets the previous id plus one, and no
id is ever assigned twice. -/
theorem C5_ids_monotone :
    assignedId 0 = 0 ∧
    (∀ n, assignedId (n + 1) = assignedId n + 1) ∧
    (∀ m n, m < n → assignedId m < assignedId n) := by
  refine ⟨rfl, fun n => ?_, fun m n hmn => ?_⟩
  · rw [assignedId_eq, assignedId_eq]
  · rw [assignedId_eq, assignedId_eq]
    exact hmn

/-- C5 witness: the theorem at the first three calls. -/
theorem C5_witness :
    assignedId 0 = 0 ∧ assignedId 1 = assignedId 0 + 1 ∧
    (0 < 2 ∧ assignedId 0 < assignedId 2) :=
  ⟨C5_ids_monotone.1, C5_ids_monotone.2.1 0, by decide,
   C5_ids_monotone.2.2 0 2 (by decide)⟩

/-- C6: one iteration of the server connection handler: a decoded
`Shutdown` packet ends the loop with success; a decoded `Message(id, req)`
runs `f.serve(&req)` and, on success, writes back `Message(id, reply)` with
the same id verbatim before continuing; on handler failure the io error is
surfaced as `Error::Io` and the connection loop ends. -/
theorem C6_connection_handler {Request Reply : Type}
    (serve : Request → Except Nat Reply)
    (rest : List (Except JsonError (Packet Request)))
    (id : Nat) (req : Request) (reply : Reply) (e : Nat) :
    handle_conn serve (.ok .Shutdown :: rest) = ([], .ok) ∧
    (serve req = .ok reply →
      handle_conn serve (.ok (.Message id req) :: rest) =
        (.Message id reply :: (handle_conn serve rest).1,
          (handle_conn serve rest).2)) ∧
    (serve req = .error e →
      handle_conn serve (.ok (.Message id req) :: rest) =
        ([], .err (.Io e))) := by
  refine ⟨rfl, fun h => ?_, fun h => ?_⟩ <;> simp [handle_conn, h]

/-- C6 witness: the theorem at the succeeding handler `serveSucc` on
request 3 under id 9 (reply `Message(9, 4)` echoes the id) and at the
failing handler `serveFail` (io error 7 surfaced). -/
theorem C6_witness :
    serveSucc 3 = .ok 4 ∧
    handle_conn serveSucc [.ok (.Message 9 3), .ok .Shutdown] =
      ([.Message 9 4], .ok) ∧
    serveFail 3 = .error 7 ∧
    handle_conn serveFail [.ok (.Message 9 3), .ok .Shutdown] =
      ([], .err (.Io 7)) :=
  ⟨rfl,
   (C6_connection_handler serveSucc [.ok .Shutdown] 9 3 4 0).2.1 rfl,
   rfl,
   (C6_connection_handler serveFail [.ok .Shutdown] 9 3 0 7).2.2 rfl⟩

/-- C7 counterexample: the claim says the server handler treats
end-of-input before any byte of a new packet as normal, non-error
termination. On the concrete stream whose first decode result is the clean
end-of-input error, `handle_conn` propagates it through `try!` and returns
`Error::Json(..)` — not the success return. -/
theorem C7_cex_server_eof_is_error :
    handle_conn serveSucc
        [.error (.SyntaxError .EOFWhileParsingValue 1 1)] =
      ([], .err (.Json (.SyntaxError .EOFWhileParsingValue 1 1))) ∧
    ConnOut.err (.Json (.SyntaxError .EOFWhileParsingValue 1 1)) ≠
      ConnOut.ok :=
  ⟨rfl, by decide⟩

/-- C7 amended: end-of-input before any byte of a new packet is treated by
the client reader as normal termination (`break`), but the server handler
propagates every decode failure — clean end-of-input included — as an
error, returning success only via a `Shutdown` packet; any other decode
failure (end-of-input mid-packet among them) is no clean termination for
either: the reader panics and the handler returns the converted decode
error. -/
theorem C7_eof_handling {Request Reply : Type} (txOpen : Bool)
    (serve : Request → Except Nat Reply) (l c : Nat)
    (restR : List (Except JsonError (Packet Reply)))
    (restS : List (Except JsonError (Packet Request))) (e : JsonError) :
    reader txOpen
        (.error (.SyntaxError .EOFWhileParsingValue l c) :: restR) =
      ([], .finished) ∧
    handle_conn serve
        (.error (.SyntaxError .EOFWhileParsingValue l c) :: restS) =
      ([], .err (.Json (.SyntaxError .EOFWhileParsingValue l c))) ∧
    ((∀ l2 c2, e ≠ .SyntaxError .EOFWhileParsingValue l2 c2) →
      reader txOpen (.error e :: restR) = ([], .panicked) ∧
      handle_conn serve (.error e :: restS) =
        ([], .err (errorFromJson e))) :=
  ⟨rfl, rfl, fun h => ⟨reader_panics_of_not_eof txOpen e restR h, rfl⟩⟩

/-- C7 witness: the amended theorem at a mid-packet decode failure
(`SyntaxError(otherCode 0, 2, 5)`). -/
theorem C7_witness :
    (∀ l2 c2, JsonError.SyntaxError (.otherCode 0) 2 5 ≠
      .SyntaxError .EOFWhileParsingValue l2 c2) ∧
    @reader Nat true
        [.error (.SyntaxError .EOFWhileParsingValue 0 0)] =
      ([], .finished) ∧
    (@reader Nat true
        [.error (.SyntaxError (.otherCode 0) 2 5)] = ([], .panicked) ∧
      handle_conn serveSucc [.error (.SyntaxError (.otherCode 0) 2 5)] =
        ([], .err (errorFromJson (.SyntaxError (.otherCode 0) 2 5)))) := by
  have h : ∀ l2 c2, JsonError.SyntaxError (.otherCode 0) 2 5 ≠
      .SyntaxError .EOFWhileParsingValue l2 c2 := by
    intro l2 c2 hx
    injection hx with h1
    exact ErrorCode.noConfusion h1
  have T := @C7_eof_handling Nat Nat true serveSucc
    0 0 [.error (.SyntaxError (.otherCode 0) 2 5)]
    [.error (.SyntaxError (.otherCode 0) 2 5)]
    (.SyntaxError (.otherCode 0) 2 5)
  have T2 := @C7_eof_handling Nat Nat true serveSucc
    0 0 [] [] (.SyntaxError (.otherCode 0) 2 5)
  exact ⟨h, T2.1, T.2.2 h⟩

/-- C8: the server accept loop returns exactly at the first accept failure,
converting it via `From` into `Error::Io`; a prefix with no accept failure
would fall out of the loop and yield the reserved `Error::Impossible`; and
the value the loop returns never depends on the results of the spawned
connection workers. -/
theorem C8_accept_loop {Conn : Type} (w w2 : Conn → ConnOut)
    (conns pre rest : List (Except Nat Conn)) (e : Nat) :
    ((∀ x ∈ conns, isAccept x = true) →
      (serveLoop w conns).1 = .Impossible) ∧
    ((∀ x ∈ pre, isAccept x = true) →
      (serveLoop w (pre ++ .error e :: rest)).1 = .Io e) ∧
    (serveLoop w conns).1 = (serveLoop w2 conns).1 :=
  ⟨serveLoop_all_ok w conns, serveLoop_first_error w e rest pre,
   serveLoop_error_independent w w2 conns⟩

/-- C8 witness: the theorem at two accepted connections, a failure after
one accepted connection, and two workers of different outcomes. -/
theorem C8_witness :
    (∀ x ∈ ([.ok 1, .ok 2] : List (Except Nat Nat)), isAccept x = true) ∧
    (serveLoop (fun _ => ConnOut.ok)
      ([.ok 1, .ok 2] : List (Except Nat Nat))).1 = .Impossible ∧
    (serveLoop (fun _ => ConnOut.ok)
      (([.ok 1] : List (Except Nat Nat)) ++ .error 9 :: [])).1 = .Io 9 ∧
    (serveLoop (fun _ => ConnOut.ok)
        ([.ok 1, .ok 2] : List (Except Nat Nat))).1 =
      (serveLoop (fun _ => ConnOut.err .Sender)
        ([.ok 1, .ok 2] : List (Except Nat Nat))).1 := by
  have h1 : ∀ x ∈ ([.ok 1, .ok 2] : List (Except Nat Nat)),
      isAccept x = true := by
    intro x hx
    simp only [List.mem_cons, List.not_mem_nil, or_false] at hx
    rcases hx with rfl | rfl <;> rfl
  have h2 : ∀ x ∈ ([.ok 1] : List (Except Nat Nat)), isAccept x = true := by
    intro x hx
    simp only [List.mem_cons, List.not_mem_nil, or_false] at hx
    rcases hx with rfl
    rfl
  have T := C8_accept_loop (fun _ => ConnOut.ok)
    (fun _ => ConnOut.err .Sender) [.ok 1, .ok 2] [.ok 1] [] 9
  exact ⟨h1, T.1 h1, T.2.1 h2, T.2.2⟩

/-- C9: for every packet over a supported payload type — one whose payload
codec consumes back exactly what it produced — encoding then decoding
yields the original packet (and consumes exactly its encoding): the
`Message` id and payload and the `Shutdown` tag round-trip unchanged. -/
theorem C9_roundtrip {T β : Type} (encT : T → List β)
    (decT : List (WireToken β) → Option (T × List (WireToken β)))
    (hdec : ∀ p rest, decT ((encT p).map .pay ++ rest) = some (p, rest)) :
    ∀ (pk : Packet T) (rest : List (WireToken β)),
      decodePacket decT (encodePacket encT pk ++ rest) = some (pk, rest) := by
  intro pk rest
  cases pk with
  | Shutdown => rfl
  | Message id payload =>
    show decodePacket decT
      (.tagMessage :: .idTok id :: ((encT payload).map .pay ++ rest)) = _
    simp only [decodePacket, hdec, Option.map_some']

/-- C9 witness: the theorem at the concrete `Nat` payload codec, for
`Message(5, 42)` and `Shutdown`. -/
theorem C9_witness :
    (∀ (p : Nat) rest,
      natPayloadDec ((natPayloadEnc p).map .pay ++ rest) = some (p, rest)) ∧
    decodePacket natPayloadDec
        (encodePacket natPayloadEnc (.Message 5 42) ++ []) =
      some (.Message 5 42, []) ∧
    decodePacket natPayloadDec
        (encodePacket natPayloadEnc (.Shutdown : Packet Nat) ++ []) =
      some (.Shutdown, []) :=
  ⟨fun _ _ => rfl,
   C9_roundtrip natPayloadEnc natPayloadDec (fun _ _ => rfl) (.Message 5 42) [],
   C9_roundtrip natPayloadEnc natPayloadDec (fun _ _ => rfl) .Shutdown []⟩

/-- C10: when the correlator dequeues a `Register` (`Handle`) event for an
id already bound in its map, `HashMap::insert` silently replaces the prior
waiter: the step raises no error and makes no delivery (the run continues
exactly as from the updated map), the id is now bound to the new waiter,
and every other binding is untouched — the prior waiter is dropped
unsignalled. -/
theorem C10_register_replaces {Reply : Type} (chanOpen : Nat → Bool)
    (map : List (Nat × Handle)) (h1 h2 : Handle)
    (rest : List (ReceiverMessage Reply))
    (hmem : lookupH map h2.id = some h1) :
    receiver chanOpen map (.Handle h2 :: rest) =
      receiver chanOpen (insertH map h2.id h2) rest ∧
    lookupH (insertH map h2.id h2) h2.id = some h2 ∧
    (∀ k, k ≠ h2.id → lookupH (insertH map h2.id h2) k = lookupH map k) := by
  refine ⟨rfl, by simp [insertH, lookupH], fun k hk => ?_⟩
  simp [insertH, lookupH, lookupH_eraseH, hk, Ne.symm hk]

/-- C10 witness: the theorem at the map `[(3, ⟨3, 10⟩)]` and a second
registration `⟨3, 20⟩` under the already-bound id 3; the follow-up
`Message(3, 7)` is then delivered to the new waiter's channel 20. -/
theorem C10_witness :
    lookupH [(3, ⟨3, 10⟩)] 3 = some ⟨3, 10⟩ ∧
    @receiver Nat (fun _ => true) [(3, ⟨3, 10⟩)]
        [.Handle ⟨3, 20⟩, .Packet (.Message 3 7)] =
      receiver (fun _ => true) (insertH [(3, ⟨3, 10⟩)] 3 ⟨3, 20⟩)
        [.Packet (.Message 3 7)] ∧
    lookupH (insertH [(3, ⟨3, 10⟩)] 3 ⟨3, 20⟩) 3 = some ⟨3, 20⟩ ∧
    lookupH (insertH [(3, ⟨3, 10⟩)] 3 ⟨3, 20⟩) 5 = lookupH [(3, ⟨3, 10⟩)] 5 ∧
    (@receiver Nat (fun _ => true) [(3, ⟨3, 10⟩)]
        [.Handle ⟨3, 20⟩, .Packet (.Message 3 7)]).deliveries = [(20, 7)] := by
  have T := @C10_register_replaces Nat (fun _ => true)
    [(3, ⟨3, 10⟩)] ⟨3, 10⟩ ⟨3, 20⟩ [.Packet (.Message 3 7)] rfl
  exact ⟨rfl, T.1, T.2.1, T.2.2 5 (by decide), rfl⟩

end Tarpc
